import Mathlib

/-!
# CaseClerk AI backend — shallow embedding and verification

This file embeds the in-memory data stores and the Express route handlers of
the CaseClerk AI backend (cases, auth, documents, calendar events, call logs,
and the error-handling middleware) as executable Lean definitions, and proves
or refutes the behavioural claims made about them.

The backend mutates module-level arrays; here every handler is a pure function
from the store (a `List`) and the request data to the new store and a response
value.  JavaScript runtime details that the handlers rely on — truthiness of
strings, `Date` parsing with `NaN` for invalid input, `parseInt`, spread
semantics of partial updates — are modelled explicitly by small helper
functions below.
-/

set_option maxRecDepth 4000

/-! ## JavaScript-semantics helpers -/

/-- Truthiness of an optional JSON string field: `undefined` and the empty
string are falsy, every other string is truthy. -/
def jsTruthy : Option String → Bool
  | none => false
  | some s => !(s == "")

/-- Models the JavaScript idiom `x || d` on an optional string: the default
`d` is used when the field is absent or falsy (empty). -/
def jsOrDefault (o : Option String) (d : String) : String :=
  match o with
  | none => d
  | some s => if s == "" then d else s

/-- Lexicographic strict order on character lists by code point. -/
def charListLt : List Char → List Char → Bool
  | [], [] => false
  | [], _ :: _ => true
  | _ :: _, [] => false
  | a :: as, b :: bs => if a = b then charListLt as bs else decide (a.val < b.val)

/-- Lexicographic strict order on strings by code point.  For the uniform
UTC ISO-8601 timestamps used throughout the repo (`YYYY-MM-DDTHH:MM:SSZ`),
this order coincides with the order of the instants they denote, so it models
comparison of `Date.getTime()` values of two valid timestamps. -/
def strLt (a b : String) : Bool :=
  charListLt a.toList b.toList

/-- Recognizer for the UTC ISO-8601 timestamp shape `YYYY-MM-DDTHH:MM:SSZ`
used for every date field in the repo's mock data.  A string of this shape
parses to a valid JS `Date`; anything else is modelled as an invalid date
(`NaN` timestamp). -/
def isoValid (s : String) : Bool :=
  match s.toList with
  | [y1, y2, y3, y4, '-', m1, m2, '-', d1, d2, 'T',
     h1, h2, ':', n1, n2, ':', s1, s2, 'Z'] =>
      [y1, y2, y3, y4, m1, m2, d1, d2, h1, h2, n1, n2, s1, s2].all Char.isDigit
  | _ => false

/-- Numeric value of a list of decimal digit characters. -/
def digitsVal (l : List Char) : Nat :=
  l.foldl (fun acc c => acc * 10 + (c.toNat - 48)) 0

/-- Days from the civil epoch 1970-01-01 (Howard Hinnant's `days_from_civil`,
the standard algorithm behind `Date` arithmetic), for years ≥ 0. -/
def daysFromCivil (y m d : Int) : Int :=
  let y' := if m ≤ 2 then y - 1 else y
  let era := y' / 400
  let yoe := y' - era * 400
  let mp := (m + 9) % 12
  let doy := (153 * mp + 2) / 5 + d - 1
  let doe := yoe * 365 + yoe / 4 - yoe / 100 + doy
  era * 146097 + doe - 719468

/-- Models `new Date(s).getTime()`: milliseconds since the epoch for a valid
ISO-8601 UTC timestamp, `none` for the `NaN` of an invalid date. -/
def jsGetTime (s : String) : Option Int :=
  if isoValid s then
    match s.toList with
    | [y1, y2, y3, y4, _, m1, m2, _, d1, d2, _,
       h1, h2, _, n1, n2, _, s1, s2, _] =>
        let y : Int := digitsVal [y1, y2, y3, y4]
        let mo : Int := digitsVal [m1, m2]
        let d : Int := digitsVal [d1, d2]
        let h : Int := digitsVal [h1, h2]
        let mi : Int := digitsVal [n1, n2]
        let se : Int := digitsVal [s1, s2]
        some (((daysFromCivil y mo d) * 86400 + h * 3600 + mi * 60 + se) * 1000)
    | _ => none
  else none

/-- Models `parseInt(s)`: the leading (optionally negated) digit run of the
string, `none` for the `NaN` of a string with no leading digits. -/
def jsParseInt (s : String) : Option Int :=
  match s.toList with
  | '-' :: rest =>
      let ds := rest.takeWhile Char.isDigit
      if ds.isEmpty then none else some (-(digitsVal ds : Int))
  | l =>
      let ds := l.takeWhile Char.isDigit
      if ds.isEmpty then none else some (digitsVal ds)

/-- Models `arr.slice(0, n)` where `n` came from `parseInt`: `NaN` (`none`)
yields the empty array, a negative `n` counts from the end. -/
def jsSlice0 {α : Type} (l : List α) (n : Option Int) : List α :=
  match n with
  | none => []
  | some k => if 0 ≤ k then l.take k.toNat else l.take (l.length - (-k).toNat)

/-- Whether `needle` occurs as a contiguous substring of `hay`, on character
lists (models `String.prototype.includes`). -/
def charListContains (hay needle : List Char) : Bool :=
  match hay with
  | [] => needle.isEmpty
  | _ :: t => needle.isPrefixOf hay || charListContains t needle

/-- Models `hay.includes(needle)`. -/
def jsIncludes (hay needle : String) : Bool :=
  charListContains hay.toList needle.toList

/-- Insertion into a list sorted by the boolean relation `le` (used to model
`Array.prototype.sort(comparator)`; the claims below never depend on the
resulting order, only on the fact that sorting permutes the array). -/
def insertLe {α : Type} (le : α → α → Bool) (a : α) : List α → List α
  | [] => [a]
  | b :: bs => if le a b then a :: b :: bs else b :: insertLe le a bs

/-- Insertion sort by the boolean relation `le`. -/
def sortLe {α : Type} (le : α → α → Bool) : List α → List α
  | [] => []
  | a :: as => insertLe le a (sortLe le as)

theorem mem_insertLe {α : Type} (le : α → α → Bool) (a x : α) (l : List α) :
    x ∈ insertLe le a l ↔ x = a ∨ x ∈ l := by
  induction l with
  | nil => simp [insertLe]
  | cons b bs ih =>
      simp only [insertLe]
      by_cases h : le a b = true
      · simp [h]
      · rw [if_neg h]
        simp only [List.mem_cons, ih]
        tauto

theorem mem_sortLe {α : Type} (le : α → α → Bool) (x : α) (l : List α) :
    x ∈ sortLe le l ↔ x ∈ l := by
  induction l with
  | nil => simp [sortLe]
  | cons a as ih => simp [sortLe, mem_insertLe, ih]

/-! ## Cases (`src/api/routes/cases.ts`)

The `CaseData` interface and the module-level `mockCases` array, together
with the route handlers `GET /`, `GET /:id`, `POST /`, `PUT /:id` and
`DELETE /:id`.  Fields that are optional in the interface are `Option`;
fields the interface requires are plain values (a request body that omits a
required field is modelled by the empty string, which is falsy exactly like
`undefined` in every check the handlers perform). -/

structure CaseData where
  id : Option String
  case_number : String
  title : String
  plaintiff : Option String
  defendant : Option String
  jurisdiction : Option String
  court_address : Option String
  judge : Option String
  department : Option String
  status : String
  case_type : String
  priority : String
  tags : List String
  next_hearing : Option String
  statute_of_limitations : Option String
  summary : Option String
  created_date : Option String
  updated_date : Option String
  user_id : Option String
deriving DecidableEq, Repr

/-- A case-record request body with every field absent; concrete bodies
override the fields they supply. -/
def emptyCaseBody : CaseData :=
  { id := none, case_number := "", title := "", plaintiff := none,
    defendant := none, jurisdiction := none, court_address := none,
    judge := none, department := none, status := "", case_type := "",
    priority := "", tags := [], next_hearing := none,
    statute_of_limitations := none, summary := none, created_date := none,
    updated_date := none, user_id := none }

/-- The initial `mockCases` development data. -/
def mockCases : List CaseData :=
  [{ id := some "1",
     case_number := "2024-CV-001234",
     title := "Smith vs. Johnson Contract Dispute",
     plaintiff := some "John Smith",
     defendant := some "Jane Johnson",
     jurisdiction := some "Superior Court of California",
     court_address := none, judge := none, department := none,
     status := "active",
     case_type := "civil",
     priority := "medium",
     tags := ["contract", "business"],
     next_hearing := some "2024-02-15T10:00:00Z",
     statute_of_limitations := none,
     summary := some "Contract dispute regarding software development agreement",
     created_date := some "2024-01-15T10:00:00Z",
     updated_date := some "2024-01-20T14:30:00Z",
     user_id := some "1" },
   { id := some "2",
     case_number := "2024-CR-005678",
     title := "State vs. Williams DUI Case",
     plaintiff := some "State of California",
     defendant := some "Robert Williams",
     jurisdiction := some "Municipal Court",
     court_address := none, judge := none, department := none,
     status := "pending",
     case_type := "criminal",
     priority := "high",
     tags := ["dui", "criminal"],
     next_hearing := some "2024-02-10T09:00:00Z",
     statute_of_limitations := none,
     summary := some "DUI case with blood alcohol level of 0.12",
     created_date := some "2024-01-10T08:00:00Z",
     updated_date := some "2024-01-18T16:45:00Z",
     user_id := some "1" }]

/-- Response of a case route: a success payload or `createError`'s
status / code / message triple routed through the error middleware. -/
inductive CaseResult where
  | ok (status : Nat) (data : CaseData)
  | okList (status : Nat) (data : List CaseData) (total : Nat)
  | deleted (status : Nat)
  | err (status : Nat) (code : String) (message : String)
deriving DecidableEq, Repr

/-- Query parameters of `GET /api/cases` (all optional). -/
structure CasesQuery where
  sort : Option String := none
  limit : Option String := none
  status : Option String := none
  case_type : Option String := none
  priority : Option String := none
  search : Option String := none
deriving Repr

/-- `c.plaintiff?.toLowerCase().includes(term)`: an absent field contributes
`undefined`, which is falsy in the `||` chain. -/
def optIncludesLower (o : Option String) (term : String) : Bool :=
  match o with
  | none => false
  | some s => jsIncludes s.toLower term

/-- The search predicate of the cases list handler. -/
def caseMatchesSearch (c : CaseData) (term : String) : Bool :=
  jsIncludes c.case_number.toLower term ||
  jsIncludes c.title.toLower term ||
  optIncludesLower c.plaintiff term ||
  optIncludesLower c.defendant term

/-- Sort key of the cases list handler: `new Date(c.updated_date!).getTime()`
(an absent or invalid date is `NaN`, modelled as timestamp 0; the claims never
depend on the order). -/
def caseUpdatedKey (c : CaseData) : Int :=
  (jsGetTime (c.updated_date.getD "")).getD 0

/-- Descending comparator used for the default `-updated_date` sort. -/
def caseSortDesc (a b : CaseData) : Bool :=
  caseUpdatedKey b ≤ caseUpdatedKey a

/-- Ascending comparator used for the `updated_date` sort. -/
def caseSortAsc (a b : CaseData) : Bool :=
  caseUpdatedKey a ≤ caseUpdatedKey b

/-- `GET /api/cases`: filter by `status`, `case_type`, `priority`, `search`,
sort by `updated_date`, then apply `limit`. -/
def getCases (store : List CaseData) (q : CasesQuery) : CaseResult :=
  let sort := q.sort.getD "-updated_date"
  let cases := store
  let cases := match q.status with
    | some s => if s ≠ "" ∧ s ≠ "all" then cases.filter (fun c => c.status == s) else cases
    | none => cases
  let cases := match q.case_type with
    | some s => if s ≠ "" ∧ s ≠ "all" then cases.filter (fun c => c.case_type == s) else cases
    | none => cases
  let cases := match q.priority with
    | some s => if s ≠ "" ∧ s ≠ "all" then cases.filter (fun c => c.priority == s) else cases
    | none => cases
  let cases := match q.search with
    | some s => if s ≠ "" then cases.filter (fun c => caseMatchesSearch c s.toLower) else cases
    | none => cases
  let cases := if sort = "-updated_date" then sortLe caseSortDesc cases
    else if sort = "updated_date" then sortLe caseSortAsc cases
    else cases
  let cases := match q.limit with
    | some l => if l ≠ "" then jsSlice0 cases (jsParseInt l) else cases
    | none => cases
  .okList 200 cases cases.length

/-- `GET /api/cases/:id`. -/
def getCaseById (store : List CaseData) (id : String) : CaseResult :=
  match store.find? (fun c => c.id == some id) with
  | none => .err 404 "CASE_NOT_FOUND" "Case not found"
  | some c => .ok 200 c

/-- The record pushed by `POST /api/cases`: the body with generated `id`,
timestamps, and `user_id` from `req.user?.id || '1'`. -/
def mkNewCase (body : CaseData) (genId nowIso : String) (reqUser : Option String) : CaseData :=
  { body with
    id := some genId,
    created_date := some nowIso,
    updated_date := some nowIso,
    user_id := some (jsOrDefault reqUser "1") }

/-- `POST /api/cases`: required-field validation, duplicate `case_number`
check, then push.  `genId` models `Date.now().toString()`, `nowIso` models
`new Date().toISOString()`. -/
def postCase (store : List CaseData) (body : CaseData) (genId nowIso : String)
    (reqUser : Option String) : List CaseData × CaseResult :=
  if body.case_number = "" ∨ body.title = "" then
    (store, .err 400 "MISSING_REQUIRED_FIELDS" "Case number and title are required")
  else
    match store.find? (fun c => c.case_number == body.case_number) with
    | some _ => (store, .err 409 "DUPLICATE_CASE_NUMBER" "Case number already exists")
    | none =>
        let newCase := mkNewCase body genId nowIso reqUser
        (store ++ [newCase], .ok 201 newCase)

/-- `Partial<CaseData>`: the body of `PUT /api/cases/:id`.  A `some` field is
present in the JSON body and overrides the stored value via the spread
`{...existing, ...updates}`; a `none` field is absent and leaves it alone.
`updated_date` is always overwritten after the spread, so it is not a body
field here. -/
structure CaseUpdate where
  id : Option String := none
  case_number : Option String := none
  title : Option String := none
  plaintiff : Option String := none
  defendant : Option String := none
  jurisdiction : Option String := none
  court_address : Option String := none
  judge : Option String := none
  department : Option String := none
  status : Option String := none
  case_type : Option String := none
  priority : Option String := none
  tags : Option (List String) := none
  next_hearing : Option String := none
  statute_of_limitations : Option String := none
  summary : Option String := none
  user_id : Option String := none
deriving DecidableEq, Repr

/-- `{...existing, ...updates, updated_date: new Date().toISOString()}`. -/
def applyCaseUpdate (c : CaseData) (u : CaseUpdate) (nowIso : String) : CaseData :=
  { id := match u.id with | some v => some v | none => c.id,
    case_number := u.case_number.getD c.case_number,
    title := u.title.getD c.title,
    plaintiff := match u.plaintiff with | some v => some v | none => c.plaintiff,
    defendant := match u.defendant with | some v => some v | none => c.defendant,
    jurisdiction := match u.jurisdiction with | some v => some v | none => c.jurisdiction,
    court_address := match u.court_address with | some v => some v | none => c.court_address,
    judge := match u.judge with | some v => some v | none => c.judge,
    department := match u.department with | some v => some v | none => c.department,
    status := u.status.getD c.status,
    case_type := u.case_type.getD c.case_type,
    priority := u.priority.getD c.priority,
    tags := u.tags.getD c.tags,
    next_hearing := match u.next_hearing with | some v => some v | none => c.next_hearing,
    statute_of_limitations :=
      match u.statute_of_limitations with | some v => some v | none => c.statute_of_limitations,
    summary := match u.summary with | some v => some v | none => c.summary,
    created_date := c.created_date,
    updated_date := some nowIso,
    user_id := match u.user_id with | some v => some v | none => c.user_id }

/-- `PUT /api/cases/:id`: find by id, 404 if absent, otherwise replace the
record with the spread-merged update. -/
def putCase (store : List CaseData) (id : String) (u : CaseUpdate)
    (nowIso : String) : List CaseData × CaseResult :=
  let idx := store.findIdx (fun c => c.id == some id)
  if h : idx < store.length then
    let merged := applyCaseUpdate store[idx] u nowIso
    (store.set idx merged, .ok 200 merged)
  else
    (store, .err 404 "CASE_NOT_FOUND" "Case not found")

/-- `DELETE /api/cases/:id`: find by id, 404 if absent, otherwise splice the
record out. -/
def deleteCase (store : List CaseData) (id : String) : List CaseData × CaseResult :=
  let idx := store.findIdx (fun c => c.id == some id)
  if idx < store.length then
    (store.eraseIdx idx, .deleted 200)
  else
    (store, .err 404 "CASE_NOT_FOUND" "Case not found")

/-- A mutating operation on the cases store, with the request-time data
(generated id, clock reading, authenticated user) as parameters. -/
inductive CasesOp where
  | post (body : CaseData) (genId nowIso : String) (reqUser : Option String)
  | put (id : String) (u : CaseUpdate) (nowIso : String)
  | del (id : String)
deriving Repr

/-- The store after one operation. -/
def casesApply (store : List CaseData) : CasesOp → List CaseData
  | .post body genId nowIso reqUser => (postCase store body genId nowIso reqUser).1
  | .put id u nowIso => (putCase store id u nowIso).1
  | .del id => (deleteCase store id).1

/-- The store after a sequence of operations, starting from `store`. -/
def casesRun (store : List CaseData) (ops : List CasesOp) : List CaseData :=
  ops.foldl casesApply store

/-! ## List helper lemmas -/

theorem find?_eq_none_of {α : Type} (p : α → Bool) (l : List α)
    (h : ∀ x ∈ l, p x = false) : l.find? p = none := by
  induction l with
  | nil => rfl
  | cons a as ih =>
      have ha : p a = false := h a (List.mem_cons_self a as)
      rw [List.find?_cons_of_neg _ (by simp [ha])]
      exact ih (fun x hx => h x (List.mem_cons_of_mem a hx))

theorem find?_append_of_none {α : Type} (p : α → Bool) (l1 l2 : List α)
    (h : l1.find? p = none) : (l1 ++ l2).find? p = l2.find? p := by
  induction l1 with
  | nil => rfl
  | cons a as ih =>
      by_cases hp : p a = true
      · rw [List.find?_cons_of_pos _ hp] at h
        exact absurd h (by simp)
      · rw [List.find?_cons_of_neg _ hp] at h
        rw [List.cons_append, List.find?_cons_of_neg _ hp]
        exact ih h

theorem find?_isSome_of {α : Type} (p : α → Bool) (l : List α) (x : α)
    (hx : x ∈ l) (hp : p x = true) : ∃ y, l.find? p = some y := by
  induction l with
  | nil => cases hx
  | cons a as ih =>
      by_cases ha : p a = true
      · exact ⟨a, List.find?_cons_of_pos _ ha⟩
      · rw [List.find?_cons_of_neg _ ha]
        rcases List.mem_cons.mp hx with rfl | hx'
        · exact absurd hp ha
        · exact ih hx'

/-! ## Claims C1, C2, C4 -/

/-- C1: a case created through `POST /api/cases` with a non-empty
`case_number` and `title`, a `case_number` not already in the store, and a
generated id not already in use, is returned by an immediately following
`GET /api/cases/:id` on the returned id, with the submitted `case_number`
and `title` intact. -/
theorem post_then_get_roundtrip (store : List CaseData) (body : CaseData)
    (genId nowIso : String) (reqUser : Option String)
    (hcn : body.case_number ≠ "") (ht : body.title ≠ "")
    (hdup : ∀ c ∈ store, c.case_number ≠ body.case_number)
    (hfresh : ∀ c ∈ store, c.id ≠ some genId) :
    (postCase store body genId nowIso reqUser).2 =
      .ok 201 (mkNewCase body genId nowIso reqUser) ∧
    getCaseById (postCase store body genId nowIso reqUser).1 genId =
      .ok 200 (mkNewCase body genId nowIso reqUser) ∧
    (mkNewCase body genId nowIso reqUser).case_number = body.case_number ∧
    (mkNewCase body genId nowIso reqUser).title = body.title := by
  have hval : ¬(body.case_number = "" ∨ body.title = "") := by
    intro h; rcases h with h | h
    · exact hcn h
    · exact ht h
  have hnone : store.find? (fun c => c.case_number == body.case_number) = none := by
    apply find?_eq_none_of
    intro x hx
    simpa using hdup x hx
  have hpost : postCase store body genId nowIso reqUser =
      (store ++ [mkNewCase body genId nowIso reqUser],
       .ok 201 (mkNewCase body genId nowIso reqUser)) := by
    rw [postCase, if_neg hval, hnone]
  refine ⟨by rw [hpost], ?_, rfl, rfl⟩
  rw [hpost]
  have hidnone : store.find? (fun c => c.id == some genId) = none := by
    apply find?_eq_none_of
    intro x hx
    simpa using hfresh x hx
  rw [getCaseById, find?_append_of_none _ _ _ hidnone]
  simp [mkNewCase]

/-- Concrete body used to exercise the create/read round trip. -/
def c1Body : CaseData :=
  { emptyCaseBody with
    case_number := "2024-CV-009999", title := "Doe vs. Roe",
    status := "active", case_type := "civil", priority := "low" }

theorem post_then_get_roundtrip_witness :
    getCaseById (postCase mockCases c1Body "1700000000000" "2024-01-21T00:00:00Z" none).1
        "1700000000000" =
      .ok 200 (mkNewCase c1Body "1700000000000" "2024-01-21T00:00:00Z" none) :=
  (post_then_get_roundtrip mockCases c1Body "1700000000000" "2024-01-21T00:00:00Z" none
    (by decide) (by decide) (by decide) (by decide)).2.1

/-- A `POST /api/cases` body whose `case_number` duplicates the stored case
`2024-CV-001234` but whose `title` is missing. -/
def c2BadBody : CaseData := { emptyCaseBody with case_number := "2024-CV-001234" }

/-- C2 counterexample: the body duplicates a stored `case_number`, yet the
response is 400 `MISSING_REQUIRED_FIELDS` (the required-field validation runs
before the duplicate check), not 409 `DUPLICATE_CASE_NUMBER`. -/
theorem postCase_duplicate_not_always_409 :
    (∃ c ∈ mockCases, c.case_number = c2BadBody.case_number) ∧
    (postCase mockCases c2BadBody "9" "2024-01-21T00:00:00Z" none).2 =
      .err 400 "MISSING_REQUIRED_FIELDS" "Case number and title are required" := by
  constructor
  · exact ⟨mockCases.head (by decide), by decide, by decide⟩
  · decide

/-- C2 amended: a `POST /api/cases` whose body carries a non-empty
`case_number` equal to that of a stored case and a non-empty `title` fails
with HTTP 409 and error code `DUPLICATE_CASE_NUMBER`, and the store is
unchanged. -/
theorem postCase_duplicate_409 (store : List CaseData) (body : CaseData)
    (genId nowIso : String) (reqUser : Option String)
    (hcn : body.case_number ≠ "") (ht : body.title ≠ "")
    (hdup : ∃ c ∈ store, c.case_number = body.case_number) :
    postCase store body genId nowIso reqUser =
      (store, .err 409 "DUPLICATE_CASE_NUMBER" "Case number already exists") := by
  have hval : ¬(body.case_number = "" ∨ body.title = "") := by
    intro h; rcases h with h | h
    · exact hcn h
    · exact ht h
  obtain ⟨c, hc, hceq⟩ := hdup
  obtain ⟨y, hy⟩ :=
    find?_isSome_of (fun c => c.case_number == body.case_number) store c hc (by simp [hceq])
  rw [postCase, if_neg hval, hy]

theorem postCase_duplicate_409_witness :
    postCase mockCases
        { emptyCaseBody with case_number := "2024-CV-001234", title := "Retry" }
        "9" "2024-01-21T00:00:00Z" none =
      (mockCases, .err 409 "DUPLICATE_CASE_NUMBER" "Case number already exists") :=
  postCase_duplicate_409 mockCases
    { emptyCaseBody with case_number := "2024-CV-001234", title := "Retry" }
    "9" "2024-01-21T00:00:00Z" none (by decide) (by decide)
    ⟨mockCases.head (by decide), by decide, by decide⟩

/-- The list payload of a cases route response. -/
def casesListOf : CaseResult → List CaseData
  | .okList _ l _ => l
  | _ => []

/-- Evaluation of the list handler at the query `?status=active`: every
other filter is skipped, the default sort permutes, no limit is applied. -/
theorem getCases_active_eval (store : List CaseData) :
    getCases store { status := some "active" } =
      .okList 200 (sortLe caseSortDesc (store.filter (fun c => c.status == "active")))
        (sortLe caseSortDesc (store.filter (fun c => c.status == "active"))).length := by
  rfl

/-- C4: for every state of the store, `GET /api/cases?status=active` responds
with success and a list holding exactly the stored cases whose `status` is
`"active"`. -/
theorem getCases_status_active (store : List CaseData) (c : CaseData) :
    (∃ l, getCases store { status := some "active" } = .okList 200 l l.length) ∧
    (c ∈ casesListOf (getCases store { status := some "active" }) ↔
      c ∈ store ∧ c.status = "active") := by
  refine ⟨⟨_, getCases_active_eval store⟩, ?_⟩
  rw [getCases_active_eval]
  simp only [casesListOf, mem_sortLe, List.mem_filter, beq_iff_eq]

/-! ## Claims C7, C8 — invariants of the cases store -/

theorem eq_false_of_find?_none {α : Type} (p : α → Bool) (l : List α)
    (h : l.find? p = none) : ∀ x ∈ l, p x = false := by
  induction l with
  | nil => intro x hx; cases hx
  | cons a as ih =>
      by_cases ha : p a = true
      · rw [List.find?_cons_of_pos _ ha] at h; exact absurd h (by simp)
      · rw [List.find?_cons_of_neg _ ha] at h
        intro x hx
        rcases List.mem_cons.mp hx with rfl | hx'
        · exact Bool.eq_false_iff.mpr ha
        · exact ih h x hx'

theorem map_set_self {α β : Type} (f : α → β) (l : List α) (i : Nat) (a : α)
    (h : i < l.length) (hf : f a = f (l.get ⟨i, h⟩)) :
    (l.set i a).map f = l.map f := by
  induction l generalizing i with
  | nil => cases h
  | cons b bs ih =>
      cases i with
      | zero => simpa using hf
      | succ j =>
          simp only [List.set, List.map_cons, List.cons.injEq, true_and]
          exact ih j (by simpa using h) (by simpa using hf)

theorem mem_of_mem_set {α : Type} {l : List α} {i : Nat} {a x : α}
    (hx : x ∈ l.set i a) : x = a ∨ x ∈ l := by
  induction l generalizing i with
  | nil => cases hx
  | cons b bs ih =>
      cases i with
      | zero =>
          rcases List.mem_cons.mp hx with rfl | h
          · exact Or.inl rfl
          · exact Or.inr (List.mem_cons_of_mem b h)
      | succ j =>
          rcases List.mem_cons.mp hx with rfl | h
          · exact Or.inr (List.mem_cons_self _ _)
          · rcases ih h with h' | h'
            · exact Or.inl h'
            · exact Or.inr (List.mem_cons_of_mem b h')

/-- Pairwise distinctness of the `case_number` values in the store. -/
def caseNumbersNodup (store : List CaseData) : Prop :=
  (store.map (fun c => c.case_number)).Nodup

/-- An operation whose `PUT` body does not supply a `case_number` (the only
way an update can change it). -/
def casePutKeepsNumber : CasesOp → Bool
  | .put _ u _ => u.case_number == none
  | _ => true

theorem casesApply_nodup (store : List CaseData) (op : CasesOp)
    (hst : caseNumbersNodup store) (hop : casePutKeepsNumber op = true) :
    caseNumbersNodup (casesApply store op) := by
  cases op with
  | post body genId nowIso reqUser =>
      by_cases hval : body.case_number = "" ∨ body.title = ""
      · simpa [casesApply, postCase, hval] using hst
      · cases hfind : store.find? (fun c => c.case_number == body.case_number) with
        | some c => simpa [casesApply, postCase, hval, hfind] using hst
        | none =>
            have hnotin : body.case_number ∉ store.map (fun c => c.case_number) := by
              intro hmem
              obtain ⟨c, hc, hceq⟩ := List.mem_map.mp hmem
              have := eq_false_of_find?_none _ _ hfind c hc
              simp [hceq] at this
            simp only [casesApply, postCase, if_neg hval, hfind]
            unfold caseNumbersNodup at hst ⊢
            rw [List.map_append]
            rw [List.nodup_append]
            refine ⟨hst, by simp, ?_⟩
            intro x hx
            simp only [List.map_cons, List.map_nil, List.mem_singleton, mkNewCase]
            intro hxeq
            exact hnotin (by rw [← hxeq]; exact hx)
  | put id u nowIso =>
      by_cases h : store.findIdx (fun c => c.id == some id) < store.length
      · have hkeep : u.case_number = none := by simpa [casePutKeepsNumber] using hop
        simp only [casesApply, putCase, dif_pos h]
        unfold caseNumbersNodup at hst ⊢
        rw [map_set_self _ _ _ _ h (by simp [applyCaseUpdate, hkeep])]
        exact hst
      · simp only [casesApply, putCase]
        rw [dif_neg h]
        exact hst
  | del id =>
      by_cases h : store.findIdx (fun c => c.id == some id) < store.length
      · simp only [casesApply, deleteCase, if_pos h]
        exact List.Nodup.sublist (List.Sublist.map _ (List.eraseIdx_sublist _ _)) hst
      · simp only [casesApply, deleteCase]
        rw [if_neg h]
        exact hst

/-- C7 amended: starting from the initial mock data, after any sequence of
`POST /api/cases`, `DELETE /api/cases/:id`, and `PUT /api/cases/:id`
operations whose `PUT` bodies do not supply a `case_number`, all cases in
the store have pairwise distinct `case_number` values. -/
theorem caseNumber_unique_invariant (ops : List CasesOp)
    (h : ∀ op ∈ ops, casePutKeepsNumber op = true) :
    caseNumbersNodup (casesRun mockCases ops) := by
  suffices H : ∀ store, caseNumbersNodup store →
      caseNumbersNodup (ops.foldl casesApply store) by
    exact H mockCases (by unfold caseNumbersNodup; decide)
  induction ops with
  | nil => intro store hst; exact hst
  | cons op rest ih =>
      intro store hst
      exact ih (fun o ho => h o (List.mem_cons_of_mem op ho)) _
        (casesApply_nodup store op hst (h op (List.mem_cons_self op rest)))

theorem caseNumber_unique_invariant_witness :
    caseNumbersNodup (casesRun mockCases
      [.post c1Body "1700000000000" "2024-01-21T00:00:00Z" none, .del "1"]) :=
  caseNumber_unique_invariant
    [.post c1Body "1700000000000" "2024-01-21T00:00:00Z" none, .del "1"] (by decide)

/-- A `PUT` body that renames case `1`'s `case_number` to the one already
held by case `2`. -/
def c7DupUpdate : CaseUpdate := { case_number := some "2024-CR-005678" }

/-- C7 counterexample: `PUT /api/cases/:id` performs no duplicate check, so a
single update renaming case `1` to case `2`'s `case_number` leaves the store
with two cases sharing a `case_number`. -/
theorem caseNumber_unique_violated :
    ¬ caseNumbersNodup (casesRun mockCases [.put "1" c7DupUpdate "2024-01-21T00:00:00Z"]) := by
  unfold caseNumbersNodup
  decide

/-- The enumerated case statuses of the `CaseData` interface. -/
def caseStatusEnum : List String := ["active", "pending", "closed", "appealed", "settled"]

/-- Whether the status string an operation supplies (if any) is drawn from
the enumeration. -/
def opStatusInEnum : CasesOp → Bool
  | .post body _ _ _ => caseStatusEnum.contains body.status
  | .put _ u _ => match u.status with
      | none => true
      | some s => caseStatusEnum.contains s
  | .del _ => true

/-- Every case in the store has an enumerated status. -/
def caseStatusesOk (store : List CaseData) : Prop :=
  ∀ c ∈ store, c.status ∈ caseStatusEnum

theorem casesApply_status (store : List CaseData) (op : CasesOp)
    (hst : caseStatusesOk store) (hop : opStatusInEnum op = true) :
    caseStatusesOk (casesApply store op) := by
  cases op with
  | post body genId nowIso reqUser =>
      by_cases hval : body.case_number = "" ∨ body.title = ""
      · simpa [casesApply, postCase, hval] using hst
      · cases hfind : store.find? (fun c => c.case_number == body.case_number) with
        | some c => simpa [casesApply, postCase, hval, hfind] using hst
        | none =>
            simp only [casesApply, postCase, if_neg hval, hfind]
            intro c hc
            rcases List.mem_append.mp hc with hc' | hc'
            · exact hst c hc'
            · have : c = mkNewCase body genId nowIso reqUser := by simpa using hc'
              subst this
              have : caseStatusEnum.contains body.status = true := by
                simpa [opStatusInEnum] using hop
              simpa [mkNewCase] using List.mem_of_elem_eq_true this
  | put id u nowIso =>
      by_cases h : store.findIdx (fun c => c.id == some id) < store.length
      · simp only [casesApply, putCase, dif_pos h]
        intro c hc
        rcases mem_of_mem_set hc with rfl | hc'
        · cases hu : u.status with
          | none =>
              have := hst _ (store.getElem_mem h)
              simpa [applyCaseUpdate, hu] using this
          | some s =>
              have : caseStatusEnum.contains s = true := by
                simpa [opStatusInEnum, hu] using hop
              simpa [applyCaseUpdate, hu] using List.mem_of_elem_eq_true this
        · exact hst c hc'
      · simp only [casesApply, putCase]
        rw [dif_neg h]
        exact hst
  | del id =>
      by_cases h : store.findIdx (fun c => c.id == some id) < store.length
      · simp only [casesApply, deleteCase, if_pos h]
        intro c hc
        exact hst c ((List.eraseIdx_sublist _ _).mem hc)
      · simp only [casesApply, deleteCase]
        rw [if_neg h]
        exact hst

/-- C8 amended: the statuses held in the store stay inside the enumerated set
`{active, pending, closed, appealed, settled}` exactly as long as every
request body supplies an enumerated status; neither `POST /api/cases` nor
`PUT /api/cases/:id` validates the `status` string at runtime, so a body is
stored with whatever status it carries. -/
theorem caseStatus_enum_invariant (ops : List CasesOp)
    (h : ∀ op ∈ ops, opStatusInEnum op = true) :
    caseStatusesOk (casesRun mockCases ops) := by
  suffices H : ∀ store, caseStatusesOk store →
      caseStatusesOk (ops.foldl casesApply store) by
    refine H mockCases ?_
    intro c hc
    fin_cases hc <;> simp [caseStatusEnum]
  induction ops with
  | nil => intro store hst; exact hst
  | cons op rest ih =>
      intro store hst
      exact ih (fun o ho => h o (List.mem_cons_of_mem op ho)) _
        (casesApply_status store op hst (h op (List.mem_cons_self op rest)))

theorem caseStatus_enum_invariant_witness :
    caseStatusesOk (casesRun mockCases
      [.post c1Body "1700000000000" "2024-01-21T00:00:00Z" none]) :=
  caseStatus_enum_invariant
    [.post c1Body "1700000000000" "2024-01-21T00:00:00Z" none] (by decide)

/-- A create body carrying a status outside the enumeration. -/
def c8BogusBody : CaseData :=
  { emptyCaseBody with
    case_number := "2024-XX-000042", title := "Bogus Status", status := "bogus" }

/-- C8 counterexample: `POST /api/cases` performs no runtime validation of
`status`, so a body with status `"bogus"` is stored as-is and the store ends
up holding a case whose status is outside the enumerated set. -/
theorem caseStatus_enum_violated :
    ¬ caseStatusesOk (casesRun mockCases
        [.post c8BogusBody "99" "2024-01-21T00:00:00Z" none]) := by
  unfold caseStatusesOk
  decide

/-! ## Authentication (`src/api/middleware/auth.ts`, `src/api/routes/auth.ts`)

`generateToken` / `generateRefreshToken` wrap `jsonwebtoken`'s `sign`; the
signing itself is third-party crypto, modelled here as an opaque injective
encoding of the payload and expiry that is never the empty string.  `bcrypt`
is likewise modelled by its contract: `compare(plain, hash(p)) = true` iff
`plain = p`. -/

/-- The payload `generateToken` signs. -/
structure TokenPayload where
  id : String
  email : String
  role : String
deriving DecidableEq, Repr

/-- Models `jwt.sign(payload, JWT_SECRET, {expiresIn})`: an opaque, injective,
never-empty encoding of the payload and expiry. -/
def jwtSign (id email role expiresIn : String) : String :=
  "jwt." ++ id ++ "." ++ email ++ "." ++ role ++ "." ++ expiresIn

/-- `generateToken`: a 24-hour access token over id, email and role. -/
def generateToken (p : TokenPayload) : String :=
  jwtSign p.id p.email p.role "24h"

/-- `generateRefreshToken`: a 7-day refresh token over id and email. -/
def generateRefreshToken (id email : String) : String :=
  jwtSign id email "" "7d"

/-- Models `bcrypt.hash(s, 10)` as an abstract injective hash. -/
def bcryptHash (s : String) : String := "bcrypt$10$" ++ s

/-- Models `bcrypt.compare(plain, hashed)`: true exactly when `hashed` is the
hash of `plain`. -/
def bcryptCompare (plain hashed : String) : Bool :=
  hashed == bcryptHash plain

/-- A mock user record of the login route. -/
structure AuthUser where
  id : String
  email : String
  password : String
  full_name : String
  role : String
  onboarding_completed : Bool
deriving DecidableEq, Repr

/-- The `mockUsers` array built inside the login handler. -/
def mockUsers : List AuthUser :=
  [{ id := "1", email := "demo@caseclerk.ai", password := bcryptHash "demo123",
     full_name := "Demo User", role := "attorney", onboarding_completed := true }]

/-- The success payload of `POST /api/auth/login`. -/
structure LoginData where
  user_id : String
  user_email : String
  user_full_name : String
  user_role : String
  onboarding_completed : Bool
  access_token : String
  refresh_token : String
  expires_in : Nat
deriving DecidableEq, Repr

inductive LoginResult where
  | ok (data : LoginData)
  | err (status : Nat) (code : String) (message : String)
deriving DecidableEq, Repr

/-- `POST /api/auth/login`.  A `createError` thrown inside the handler's
`try` block (unknown email, wrong password) is caught by its own `catch` and
re-thrown as 401 `AUTH_FAILED`. -/
def loginHandler (email password : String) : LoginResult :=
  if email = "" ∨ password = "" then
    .err 400 "MISSING_CREDENTIALS" "Email and password are required"
  else
    match mockUsers.find? (fun u => u.email == email) with
    | none => .err 401 "AUTH_FAILED" "Authentication failed"
    | some user =>
        if ¬ bcryptCompare password user.password then
          .err 401 "AUTH_FAILED" "Authentication failed"
        else
          .ok { user_id := user.id, user_email := user.email,
                user_full_name := user.full_name, user_role := user.role,
                onboarding_completed := user.onboarding_completed,
                access_token := generateToken
                  { id := user.id, email := user.email, role := user.role },
                refresh_token := generateRefreshToken user.id user.email,
                expires_in := 24 * 60 * 60 }

/-- C3: logging in with the demo credentials succeeds, with an access token
that is the JWT signed for user id `1` with role `attorney` and is non-empty,
a refresh token, and `expires_in` of 86400 seconds. -/
theorem login_demo_credentials :
    ∃ d, loginHandler "demo@caseclerk.ai" "demo123" = .ok d ∧
      d.access_token =
        generateToken { id := "1", email := "demo@caseclerk.ai", role := "attorney" } ∧
      d.access_token ≠ "" ∧
      d.refresh_token = generateRefreshToken "1" "demo@caseclerk.ai" ∧
      d.expires_in = 86400 := by
  refine ⟨_, rfl, rfl, ?_, rfl, rfl⟩
  decide

/-! ## Documents (`src/api/routes/documents.ts`)

The multer upload configuration (50MB `fileSize` limit, whitelisted MIME
types) and the `POST /upload` handler.  When the limit or the file filter
rejects the file, multer passes an error to the middleware chain and the
route handler never runs, so the store is untouched. -/

/-- The MIME whitelist of the documents upload `fileFilter`. -/
def allowedDocumentMimeTypes : List String :=
  ["application/pdf",
   "application/msword",
   "application/vnd.openxmlformats-officedocument.wordprocessingml.document",
   "text/plain",
   "image/jpeg",
   "image/png",
   "image/gif"]

/-- A file as multer presents it to the handler. -/
structure UploadedFile where
  originalname : String
  filename : String
  size : Nat
  mimetype : String
deriving DecidableEq, Repr

/-- Whether multer accepts the file: within the 50MB `fileSize` limit
(`50 * 1024 * 1024` bytes; a larger file raises `LIMIT_FILE_SIZE`) and with
a whitelisted MIME type (otherwise the `fileFilter` raises). -/
def documentFileAccepted (f : UploadedFile) : Bool :=
  f.size ≤ 50 * 1024 * 1024 && allowedDocumentMimeTypes.contains f.mimetype

/-- The `DocumentData` interface. -/
structure DocumentData where
  id : String
  case_id : Option String
  original_name : String
  file_name : String
  file_url : String
  file_size : Nat
  mime_type : String
  document_type : String
  status : String
  ai_summary : Option String
  extracted_text : Option String
  tags : List String
  created_date : String
  updated_date : String
  user_id : String
deriving DecidableEq, Repr

inductive UploadResult where
  /-- The multer middleware rejected the file (size limit or file filter);
  the route handler never ran. -/
  | multerRejected
  | err (status : Nat) (code : String) (message : String)
  | created (d : DocumentData)
deriving DecidableEq, Repr

/-- `POST /api/documents/upload`: multer middleware, then the handler, which
records the document (immediately marked `processing` for PDF and plain text,
mutated again later by a `setTimeout` outside this model). -/
def uploadDocument (store : List DocumentData) (file : Option UploadedFile)
    (case_id : Option String) (document_type : Option String)
    (genId nowIso : String) (reqUser : Option String) :
    List DocumentData × UploadResult :=
  match file with
  | none => (store, .err 400 "NO_FILE" "No file uploaded")
  | some f =>
      if ¬ documentFileAccepted f then
        (store, .multerRejected)
      else
        let newDocument : DocumentData :=
          { id := genId,
            case_id := case_id,
            original_name := f.originalname,
            file_name := f.filename,
            file_url := "/uploads/" ++ f.filename,
            file_size := f.size,
            mime_type := f.mimetype,
            document_type := document_type.getD "other",
            status := if f.mimetype = "application/pdf" ∨ f.mimetype = "text/plain"
              then "processing" else "completed",
            ai_summary := none,
            extracted_text := none,
            tags := [],
            created_date := nowIso,
            updated_date := nowIso,
            user_id := jsOrDefault reqUser "1" }
        (store ++ [newDocument], .created newDocument)

/-- C5: a file larger than 50MB, or with a MIME type outside the whitelist,
is rejected by the multer configuration of `POST /api/documents/upload` and
no document record is added to the store. -/
theorem upload_rejects_oversize_and_bad_mime (store : List DocumentData)
    (f : UploadedFile) (case_id document_type : Option String)
    (genId nowIso : String) (reqUser : Option String)
    (h : 50 * 1024 * 1024 < f.size ∨ f.mimetype ∉ allowedDocumentMimeTypes) :
    uploadDocument store (some f) case_id document_type genId nowIso reqUser =
      (store, .multerRejected) := by
  have hrej : documentFileAccepted f = false := by
    unfold documentFileAccepted
    rcases h with h | h
    · simp [Nat.not_le_of_lt h]
    · simp only [Bool.and_eq_false_iff]
      right
      simpa using h
  simp [uploadDocument, hrej]

/-- A 50MB-plus PDF used to exercise the size limit. -/
def oversizePdf : UploadedFile :=
  { originalname := "big.pdf", filename := "file-1-big.pdf",
    size := 52428801, mimetype := "application/pdf" }

theorem upload_rejects_oversize_and_bad_mime_witness :
    uploadDocument [] (some oversizePdf) none none
        "1700000000000" "2024-01-21T00:00:00Z" none = ([], .multerRejected) :=
  upload_rejects_oversize_and_bad_mime [] oversizePdf none none "1700000000000"
    "2024-01-21T00:00:00Z" none (Or.inl (by decide))

/-! ## Error handling (`src/api/middleware/errorHandler.ts`,
`src/api/middleware/rateLimiter.ts`, `src/api/middleware/auth.ts`, and the
404 handler of `src/server.ts`)

The centralized `errorHandler` produces the `{success:false,
error:{code,message}}` envelope.  The rate limiter's 429, the auth
middleware's 401s, and the unmatched-route 404 handler each call `res.json`
themselves with a plain `{success:false, message}` body. -/

/-- An error code, which in the handler may be a string or (for MongoDB
duplicate keys) a number. -/
inductive ErrCode where
  | str (s : String)
  | num (n : Nat)
deriving DecidableEq, Repr

/-- The `ApiError` shape consumed by `errorHandler`. -/
structure ApiError where
  name : String
  message : String
  statusCode : Option Nat
  code : Option ErrCode
deriving DecidableEq, Repr

/-- The `error` object of the JSON error envelope. -/
structure ErrorBody where
  code : ErrCode
  message : String
deriving DecidableEq, Repr

/-- A JSON error response as the backend middlewares emit it: the envelope
field `error` is present only when the emitter fills it in. -/
structure JsonErrorResponse where
  status : Nat
  success : Bool
  error : Option ErrorBody
  message : Option String
deriving DecidableEq, Repr

/-- `errorHandler`: default the status, message, and code through `||`
(treating 0 and the empty string as falsy), override them for the known
error names, hide internal messages in production, and emit the envelope. -/
def errorHandler (e : ApiError) (isProduction : Bool) : JsonErrorResponse :=
  let statusCode0 := match e.statusCode with
    | none => 500
    | some n => if n = 0 then 500 else n
  let message0 := if e.message = "" then "Internal server error" else e.message
  let code0 : ErrCode := match e.code with
    | none => .str "INTERNAL_ERROR"
    | some (.str s) => if s = "" then .str "INTERNAL_ERROR" else .str s
    | some (.num n) => if n = 0 then .str "INTERNAL_ERROR" else .num n
  let scm : Nat × String × ErrCode :=
    if e.name = "ValidationError" then (400, "Validation error", .str "VALIDATION_ERROR")
    else if e.name = "CastError" then (400, "Invalid ID format", .str "INVALID_ID")
    else if e.name = "MongoError" ∧ e.code = some (.num 11000) then
      (409, "Duplicate entry", .str "DUPLICATE_ENTRY")
    else if e.name = "JsonWebTokenError" then (401, "Invalid token", .str "INVALID_TOKEN")
    else if e.name = "TokenExpiredError" then (401, "Token expired", .str "TOKEN_EXPIRED")
    else (statusCode0, message0, code0)
  let message := if isProduction ∧ scm.1 = 500 then "Internal server error" else scm.2.1
  { status := scm.1, success := false,
    error := some { code := scm.2.2, message := message }, message := none }

/-- The rate limiter's 429 response (`rateLimiter.ts`): a plain message body
with no `error` object. -/
def rateLimitExceededResponse : JsonErrorResponse :=
  { status := 429, success := false, error := none, message := some "Too many requests" }

/-- The auth middleware's 401 for a missing bearer token (`auth.ts`). -/
def authMissingTokenResponse : JsonErrorResponse :=
  { status := 401, success := false, error := none, message := some "Access token required" }

/-- The unmatched-route 404 handler of `server.ts`. -/
def notFoundRouteResponse : JsonErrorResponse :=
  { status := 404, success := false, error := none, message := some "Route not found" }

/-- C6 counterexample: the unmatched-route 404 handler produces an error
response (status ≥ 400) with no `error:{code,message}` envelope — as do the
rate limiter's 429 and the auth middleware's 401. -/
theorem error_envelope_not_universal :
    (400 ≤ notFoundRouteResponse.status ∧ notFoundRouteResponse.success = false ∧
      notFoundRouteResponse.error = none) ∧
    (400 ≤ rateLimitExceededResponse.status ∧ rateLimitExceededResponse.error = none) ∧
    (400 ≤ authMissingTokenResponse.status ∧ authMissingTokenResponse.error = none) := by
  decide

/-- C6 amended: every response produced by the centralized `errorHandler`
middleware carries the `{success:false, error:{code,message}}` envelope, but
the rate limiter's 429, the auth middleware's 401, and the unmatched-route
404 handler bypass it and respond with `{success:false, message}` without an
`error` object. -/
theorem error_envelope_from_errorHandler (e : ApiError) (isProduction : Bool) :
    (errorHandler e isProduction).success = false ∧
    (errorHandler e isProduction).error.isSome = true ∧
    rateLimitExceededResponse.error = none ∧
    authMissingTokenResponse.error = none ∧
    notFoundRouteResponse.error = none := by
  refine ⟨rfl, ?_, rfl, rfl, rfl⟩
  simp [errorHandler]

/-! ## Calendar events (`src/api/routes/calendarEvents.ts`)

The `CalendarEventData` interface, the `mockEvents` array, and the handlers
`POST /`, `PUT /:id`, and `PUT /:id/reschedule`, with their date-range
validation `new Date(start) >= new Date(end)`. -/

/-- Models `new Date(a) >= new Date(b)`: false whenever either date is
invalid (`NaN`). -/
def jsDateGe (a b : String) : Bool :=
  match jsGetTime a, jsGetTime b with
  | some x, some y => y ≤ x
  | _, _ => false

/-- Models `new Date(a) < new Date(b)` (used to state the invariant
"start_time strictly earlier than end_time"): false whenever either date is
invalid. -/
def jsDateLt (a b : String) : Bool :=
  match jsGetTime a, jsGetTime b with
  | some x, some y => x < y
  | _, _ => false

/-- A string that parses to a valid JS date under the model. -/
def dateValid (s : String) : Bool :=
  (jsGetTime s).isSome

structure Attendee where
  name : String
  email : Option String
  role : String
  required : Bool
deriving DecidableEq, Repr

structure Reminder where
  time_before : Nat
  method : String
  sent : Bool
deriving DecidableEq, Repr

structure Recurring where
  frequency : String
  interval : Nat
  end_date : Option String
  count : Option Nat
deriving DecidableEq, Repr

structure CalendarEventData where
  id : String
  case_id : Option String
  title : String
  description : Option String
  start_time : String
  end_time : String
  location : Option String
  event_type : String
  priority : String
  status : String
  attendees : List Attendee
  reminders : List Reminder
  recurring : Option Recurring
  notes : Option String
  documents : List String
  created_date : String
  updated_date : String
  user_id : String
deriving DecidableEq, Repr

/-- The initial `mockEvents` development data. -/
def mockEvents : List CalendarEventData :=
  [{ id := "1",
     case_id := some "1",
     title := "Contract Dispute Hearing",
     description := some "Initial hearing for Smith vs. Johnson contract dispute",
     start_time := "2024-02-15T10:00:00Z",
     end_time := "2024-02-15T11:00:00Z",
     location := some "Superior Court of California, Room 101",
     event_type := "hearing",
     priority := "high",
     status := "scheduled",
     attendees :=
       [{ name := "John Smith", email := some "john.smith@email.com",
          role := "client", required := true },
        { name := "Judge Williams", email := none, role := "judge", required := true }],
     reminders :=
       [{ time_before := 1440, method := "email", sent := false },
        { time_before := 60, method := "notification", sent := false }],
     recurring := none,
     notes := some "Bring all contract documents and evidence",
     documents := ["1"],
     created_date := "2024-01-15T10:00:00Z",
     updated_date := "2024-01-15T10:00:00Z",
     user_id := "1" },
   { id := "2",
     case_id := some "2",
     title := "Client Consultation - Williams DUI",
     description := some "Initial consultation with Robert Williams regarding DUI case",
     start_time := "2024-02-12T14:00:00Z",
     end_time := "2024-02-12T15:00:00Z",
     location := some "Law Office Conference Room A",
     event_type := "consultation",
     priority := "medium",
     status := "confirmed",
     attendees :=
       [{ name := "Robert Williams", email := some "robert.williams@email.com",
          role := "client", required := true }],
     reminders := [{ time_before := 60, method := "email", sent := false }],
     recurring := none,
     notes := some "Review police report and breathalyzer results",
     documents := [],
     created_date := "2024-01-10T08:00:00Z",
     updated_date := "2024-01-18T16:45:00Z",
     user_id := "1" }]

inductive EventResult where
  | ok (status : Nat) (data : CalendarEventData)
  | err (status : Nat) (code : String) (message : String)
deriving DecidableEq, Repr

/-- Whether an event route responded successfully. -/
def eventResultIsOk : EventResult → Bool
  | .ok _ _ => true
  | .err _ _ _ => false

/-- The body of `PUT /api/calendar-events/:id`: present fields override the
stored record through the spread `{...existing, ...updates}`;
`updated_date` is overwritten after the spread. -/
structure EventUpdate where
  id : Option String := none
  case_id : Option String := none
  title : Option String := none
  description : Option String := none
  start_time : Option String := none
  end_time : Option String := none
  location : Option String := none
  event_type : Option String := none
  priority : Option String := none
  status : Option String := none
  attendees : Option (List Attendee) := none
  reminders : Option (List Reminder) := none
  recurring : Option Recurring := none
  notes : Option String := none
  documents : Option (List String) := none
  user_id : Option String := none
deriving DecidableEq, Repr

/-- `{...existing, ...updates, updated_date: new Date().toISOString()}`.
Note that the spread copies a present-but-empty string verbatim, unlike the
`||`-based fallbacks used in the validation above it. -/
def applyEventUpdate (e : CalendarEventData) (u : EventUpdate)
    (nowIso : String) : CalendarEventData :=
  { id := u.id.getD e.id,
    case_id := match u.case_id with | some v => some v | none => e.case_id,
    title := u.title.getD e.title,
    description := match u.description with | some v => some v | none => e.description,
    start_time := u.start_time.getD e.start_time,
    end_time := u.end_time.getD e.end_time,
    location := match u.location with | some v => some v | none => e.location,
    event_type := u.event_type.getD e.event_type,
    priority := u.priority.getD e.priority,
    status := u.status.getD e.status,
    attendees := u.attendees.getD e.attendees,
    reminders := u.reminders.getD e.reminders,
    recurring := match u.recurring with | some v => some v | none => e.recurring,
    notes := match u.notes with | some v => some v | none => e.notes,
    documents := u.documents.getD e.documents,
    created_date := e.created_date,
    updated_date := nowIso,
    user_id := u.user_id.getD e.user_id }

/-- `POST /api/calendar-events`: required fields, then the date-range check
`new Date(start_time) >= new Date(end_time)`, then push. -/
def postEvent (store : List CalendarEventData) (body : CalendarEventData)
    (genId nowIso : String) (reqUser : Option String) :
    List CalendarEventData × EventResult :=
  if body.title = "" ∨ body.start_time = "" ∨ body.end_time = "" then
    (store, .err 400 "MISSING_REQUIRED_FIELDS" "Title, start time, and end time are required")
  else if jsDateGe body.start_time body.end_time then
    (store, .err 400 "INVALID_DATE_RANGE" "End time must be after start time")
  else
    let newEvent := { body with
      id := genId, created_date := nowIso, updated_date := nowIso,
      user_id := jsOrDefault reqUser "1" }
    (store ++ [newEvent], .ok 201 newEvent)

/-- `PUT /api/calendar-events/:id`: the date range is validated only when the
body supplies a truthy `start_time` or `end_time`, with `||`-fallbacks to the
stored values; then the body is spread over the stored record. -/
def putEvent (store : List CalendarEventData) (id : String) (u : EventUpdate)
    (nowIso : String) : List CalendarEventData × EventResult :=
  let idx := store.findIdx (fun e => e.id == id)
  if h : idx < store.length then
    let existing := store[idx]
    if jsTruthy u.start_time || jsTruthy u.end_time then
      let startTime := jsOrDefault u.start_time existing.start_time
      let endTime := jsOrDefault u.end_time existing.end_time
      if jsDateGe startTime endTime then
        (store, .err 400 "INVALID_DATE_RANGE" "End time must be after start time")
      else
        let merged := applyEventUpdate existing u nowIso
        (store.set idx merged, .ok 200 merged)
    else
      let merged := applyEventUpdate existing u nowIso
      (store.set idx merged, .ok 200 merged)
  else
    (store, .err 404 "EVENT_NOT_FOUND" "Calendar event not found")

/-- `PUT /api/calendar-events/:id/reschedule`: both times required (truthy),
then the date-range check, then the times and a `rescheduled` status are
written onto the stored record. -/
def rescheduleEvent (store : List CalendarEventData) (id : String)
    (start_time end_time : Option String) (nowIso : String) :
    List CalendarEventData × EventResult :=
  if ¬ (jsTruthy start_time && jsTruthy end_time) then
    (store, .err 400 "MISSING_TIMES" "Start time and end time are required")
  else
    let st := start_time.getD ""
    let et := end_time.getD ""
    let idx := store.findIdx (fun e => e.id == id)
    if h : idx < store.length then
      if jsDateGe st et then
        (store, .err 400 "INVALID_DATE_RANGE" "End time must be after start time")
      else
        let merged := { store[idx] with
          start_time := st, end_time := et, status := "rescheduled",
          updated_date := nowIso }
        (store.set idx merged, .ok 200 merged)
    else
      (store, .err 404 "EVENT_NOT_FOUND" "Calendar event not found")

/-- A mutating operation on the calendar-events store. -/
inductive CalOp where
  | post (body : CalendarEventData) (genId nowIso : String) (reqUser : Option String)
  | put (id : String) (u : EventUpdate) (nowIso : String)
  | reschedule (id : String) (start_time end_time : Option String) (nowIso : String)

/-- One operation on the calendar store, with its response. -/
def calStep (store : List CalendarEventData) :
    CalOp → List CalendarEventData × EventResult
  | .post body genId nowIso reqUser => postEvent store body genId nowIso reqUser
  | .put id u nowIso => putEvent store id u nowIso
  | .reschedule id st et nowIso => rescheduleEvent store id st et nowIso

/-- The start-before-end invariant of a stored event, as a date comparison:
`new Date(start_time) < new Date(end_time)` (false when either is invalid). -/
def startLtEnd (e : CalendarEventData) : Bool :=
  jsDateLt e.start_time e.end_time

/-- Every event in the store starts strictly before it ends. -/
def eventsInvariant (store : List CalendarEventData) : Prop :=
  ∀ e ∈ store, startLtEnd e = true

/-- Every time string an operation supplies parses to a valid date. -/
def calOpTimesValid : CalOp → Bool
  | .post body _ _ _ => dateValid body.start_time && dateValid body.end_time
  | .put _ u _ =>
      (match u.start_time with | none => true | some s => dateValid s) &&
      (match u.end_time with | none => true | some s => dateValid s)
  | .reschedule _ st et _ =>
      (match st with | none => true | some s => dateValid s) &&
      (match et with | none => true | some s => dateValid s)

/-- The record pushed by `POST /api/calendar-events`. -/
def mkNewEvent (body : CalendarEventData) (genId nowIso : String)
    (reqUser : Option String) : CalendarEventData :=
  { body with
    id := genId, created_date := nowIso, updated_date := nowIso,
    user_id := jsOrDefault reqUser "1" }

/-- The record written by the reschedule handler. -/
def rescheduleMerge (e : CalendarEventData) (st et nowIso : String) : CalendarEventData :=
  { e with
    start_time := st, end_time := et, status := "rescheduled",
    updated_date := nowIso }

theorem dateValid_ne_empty {s : String} (h : dateValid s = true) : s ≠ "" := by
  intro he
  subst he
  exact absurd h (by decide)

theorem jsDateLt_of_not_ge {a b : String} (ha : dateValid a = true)
    (hb : dateValid b = true) (h : jsDateGe a b = false) : jsDateLt a b = true := by
  obtain ⟨x, hx⟩ := Option.isSome_iff_exists.mp ha
  obtain ⟨y, hy⟩ := Option.isSome_iff_exists.mp hb
  unfold jsDateGe at h
  rw [hx, hy] at h
  unfold jsDateLt
  rw [hx, hy]
  simp only [decide_eq_false_iff_not] at h
  simp only [decide_eq_true_eq]
  omega

theorem dateValid_start_of_inv {e : CalendarEventData} (h : startLtEnd e = true) :
    dateValid e.start_time = true := by
  unfold startLtEnd jsDateLt at h
  unfold dateValid
  cases hx : jsGetTime e.start_time with
  | none => rw [hx] at h; simp at h
  | some x => rfl

theorem dateValid_end_of_inv {e : CalendarEventData} (h : startLtEnd e = true) :
    dateValid e.end_time = true := by
  unfold startLtEnd jsDateLt at h
  unfold dateValid
  cases hy : jsGetTime e.end_time with
  | none =>
      rw [hy] at h
      cases hx : jsGetTime e.start_time <;> rw [hx] at h <;> simp at h
  | some y => rfl

/-- C9 amended: one calendar operation (create, update, or reschedule) whose
supplied time strings all parse as valid dates preserves the invariant that
every stored event starts strictly before it ends, and a rejection with 400
`INVALID_DATE_RANGE` always leaves the store unchanged. -/
theorem calendar_start_before_end (store : List CalendarEventData) (op : CalOp)
    (hv : calOpTimesValid op = true) (hst : eventsInvariant store) :
    eventsInvariant (calStep store op).1 ∧
    ((calStep store op).2 =
        .err 400 "INVALID_DATE_RANGE" "End time must be after start time" →
      (calStep store op).1 = store) := by
  cases op with
  | post body genId nowIso reqUser =>
      simp only [calOpTimesValid, Bool.and_eq_true] at hv
      obtain ⟨hs, he⟩ := hv
      by_cases h1 : body.title = "" ∨ body.start_time = "" ∨ body.end_time = ""
      · have heq : calStep store (.post body genId nowIso reqUser) =
            (store, .err 400 "MISSING_REQUIRED_FIELDS"
              "Title, start time, and end time are required") := by
          simp [calStep, postEvent, h1]
        rw [heq]
        exact ⟨hst, fun _ => rfl⟩
      · by_cases h2 : jsDateGe body.start_time body.end_time = true
        · have heq : calStep store (.post body genId nowIso reqUser) =
              (store, .err 400 "INVALID_DATE_RANGE" "End time must be after start time") := by
            simp [calStep, postEvent, h1, h2]
          rw [heq]
          exact ⟨hst, fun _ => rfl⟩
        · have heq : calStep store (.post body genId nowIso reqUser) =
              (store ++ [mkNewEvent body genId nowIso reqUser],
               .ok 201 (mkNewEvent body genId nowIso reqUser)) := by
            simp [calStep, postEvent, h1, h2, mkNewEvent]
          rw [heq]
          refine ⟨?_, fun hc => absurd hc (fun hc => EventResult.noConfusion hc)⟩
          intro e hmem
          rcases List.mem_append.mp hmem with hmem' | hmem'
          · exact hst e hmem'
          · have : e = mkNewEvent body genId nowIso reqUser := by simpa using hmem'
            subst this
            exact jsDateLt_of_not_ge hs he (Bool.not_eq_true _ ▸ h2)
  | put id u nowIso =>
      simp only [calOpTimesValid, Bool.and_eq_true] at hv
      obtain ⟨hv1, hv2⟩ := hv
      by_cases h : store.findIdx (fun e => e.id == id) < store.length
      · have hinv0 : startLtEnd store[store.findIdx (fun e => e.id == id)] = true :=
          hst _ (store.getElem_mem h)
        by_cases hgate : (jsTruthy u.start_time || jsTruthy u.end_time) = true
        · have hstv : dateValid (jsOrDefault u.start_time
              store[store.findIdx (fun e => e.id == id)].start_time) = true := by
            cases hu : u.start_time with
            | none => simpa [jsOrDefault] using dateValid_start_of_inv hinv0
            | some s =>
                have hds : dateValid s = true := by rw [hu] at hv1; exact hv1
                simp [jsOrDefault, dateValid_ne_empty hds, hds]
          have hetv : dateValid (jsOrDefault u.end_time
              store[store.findIdx (fun e => e.id == id)].end_time) = true := by
            cases hu : u.end_time with
            | none => simpa [jsOrDefault] using dateValid_end_of_inv hinv0
            | some s =>
                have hds : dateValid s = true := by rw [hu] at hv2; exact hv2
                simp [jsOrDefault, dateValid_ne_empty hds, hds]
          have hmtimes :
              (applyEventUpdate store[store.findIdx (fun e => e.id == id)] u nowIso).start_time =
                jsOrDefault u.start_time store[store.findIdx (fun e => e.id == id)].start_time ∧
              (applyEventUpdate store[store.findIdx (fun e => e.id == id)] u nowIso).end_time =
                jsOrDefault u.end_time store[store.findIdx (fun e => e.id == id)].end_time := by
            constructor
            · cases hu : u.start_time with
              | none => simp [applyEventUpdate, jsOrDefault, hu]
              | some s =>
                  have hds : dateValid s = true := by rw [hu] at hv1; exact hv1
                  simp [applyEventUpdate, jsOrDefault, hu, dateValid_ne_empty hds]
            · cases hu : u.end_time with
              | none => simp [applyEventUpdate, jsOrDefault, hu]
              | some s =>
                  have hds : dateValid s = true := by rw [hu] at hv2; exact hv2
                  simp [applyEventUpdate, jsOrDefault, hu, dateValid_ne_empty hds]
          by_cases h2 : jsDateGe
              (jsOrDefault u.start_time store[store.findIdx (fun e => e.id == id)].start_time)
              (jsOrDefault u.end_time store[store.findIdx (fun e => e.id == id)].end_time) = true
          · have heq : calStep store (.put id u nowIso) =
                (store, .err 400 "INVALID_DATE_RANGE" "End time must be after start time") := by
              simp only [calStep, putEvent]
              rw [dif_pos h, if_pos hgate, if_pos h2]
            rw [heq]
            exact ⟨hst, fun _ => rfl⟩
          · have heq : calStep store (.put id u nowIso) =
                (store.set (store.findIdx (fun e => e.id == id))
                  (applyEventUpdate store[store.findIdx (fun e => e.id == id)] u nowIso),
                 .ok 200 (applyEventUpdate store[store.findIdx (fun e => e.id == id)] u nowIso)) := by
              simp only [calStep, putEvent]
              rw [dif_pos h, if_pos hgate, if_neg h2]
            rw [heq]
            refine ⟨?_, fun hc => absurd hc (fun hc => EventResult.noConfusion hc)⟩
            intro e hmem
            rcases mem_of_mem_set hmem with rfl | hmem'
            · unfold startLtEnd
              rw [hmtimes.1, hmtimes.2]
              exact jsDateLt_of_not_ge hstv hetv (Bool.not_eq_true _ ▸ h2)
            · exact hst e hmem'
        · have hu1 : u.start_time = none := by
            cases hu : u.start_time with
            | none => rfl
            | some s =>
                have hds : dateValid s = true := by rw [hu] at hv1; exact hv1
                exact absurd (by simp [jsTruthy, hu, dateValid_ne_empty hds]) hgate
          have hu2 : u.end_time = none := by
            cases hu : u.end_time with
            | none => rfl
            | some s =>
                have hds : dateValid s = true := by rw [hu] at hv2; exact hv2
                exact absurd (by simp [jsTruthy, hu, dateValid_ne_empty hds]) hgate
          have heq : calStep store (.put id u nowIso) =
              (store.set (store.findIdx (fun e => e.id == id))
                (applyEventUpdate store[store.findIdx (fun e => e.id == id)] u nowIso),
               .ok 200 (applyEventUpdate store[store.findIdx (fun e => e.id == id)] u nowIso)) := by
            simp only [calStep, putEvent]
            rw [dif_pos h, if_neg hgate]
          rw [heq]
          refine ⟨?_, fun hc => absurd hc (fun hc => EventResult.noConfusion hc)⟩
          intro e hmem
          rcases mem_of_mem_set hmem with rfl | hmem'
          · unfold startLtEnd
            have hts : (applyEventUpdate store[store.findIdx (fun e => e.id == id)] u
                nowIso).start_time = store[store.findIdx (fun e => e.id == id)].start_time := by
              simp [applyEventUpdate, hu1]
            have hte : (applyEventUpdate store[store.findIdx (fun e => e.id == id)] u
                nowIso).end_time = store[store.findIdx (fun e => e.id == id)].end_time := by
              simp [applyEventUpdate, hu2]
            rw [hts, hte]
            exact hinv0
          · exact hst e hmem'
      · have heq : calStep store (.put id u nowIso) =
            (store, .err 404 "EVENT_NOT_FOUND" "Calendar event not found") := by
          simp only [calStep, putEvent]
          rw [dif_neg h]
        rw [heq]
        exact ⟨hst, fun _ => rfl⟩
  | reschedule id st et nowIso =>
      by_cases hreq : (jsTruthy st && jsTruthy et) = true
      · have hreq' := hreq
        rw [Bool.and_eq_true] at hreq'
        obtain ⟨hts, hte⟩ := hreq'
        obtain ⟨s, hs⟩ : ∃ s, st = some s := by
          cases st with
          | none => simp [jsTruthy] at hts
          | some s => exact ⟨s, rfl⟩
        obtain ⟨t, ht⟩ : ∃ t, et = some t := by
          cases et with
          | none => simp [jsTruthy] at hte
          | some t => exact ⟨t, rfl⟩
        subst hs ht
        simp only [calOpTimesValid, Bool.and_eq_true] at hv
        obtain ⟨hvs, hvt⟩ := hv
        by_cases h : store.findIdx (fun e => e.id == id) < store.length
        · by_cases h2 : jsDateGe s t = true
          · have heq : calStep store (.reschedule id (some s) (some t) nowIso) =
                (store, .err 400 "INVALID_DATE_RANGE" "End time must be after start time") := by
              simp only [calStep, rescheduleEvent]
              rw [if_neg (by simp [hreq]), dif_pos h]
              simp only [Option.getD_some]
              rw [if_pos h2]
            rw [heq]
            exact ⟨hst, fun _ => rfl⟩
          · have heq : calStep store (.reschedule id (some s) (some t) nowIso) =
                (store.set (store.findIdx (fun e => e.id == id))
                  (rescheduleMerge store[store.findIdx (fun e => e.id == id)] s t nowIso),
                 .ok 200 (rescheduleMerge store[store.findIdx (fun e => e.id == id)] s t nowIso)) := by
              simp only [calStep, rescheduleEvent]
              rw [if_neg (by simp [hreq]), dif_pos h]
              simp only [Option.getD_some]
              rw [if_neg h2]
              rfl
            rw [heq]
            refine ⟨?_, fun hc => absurd hc (fun hc => EventResult.noConfusion hc)⟩
            intro e hmem
            rcases mem_of_mem_set hmem with rfl | hmem'
            · unfold startLtEnd
              exact jsDateLt_of_not_ge hvs hvt (Bool.not_eq_true _ ▸ h2)
            · exact hst e hmem'
        · have heq : calStep store (.reschedule id (some s) (some t) nowIso) =
              (store, .err 404 "EVENT_NOT_FOUND" "Calendar event not found") := by
            simp only [calStep, rescheduleEvent]
            rw [if_neg (by simp [hreq]), dif_neg h]
          rw [heq]
          exact ⟨hst, fun _ => rfl⟩
      · have heq : calStep store (.reschedule id st et nowIso) =
            (store, .err 400 "MISSING_TIMES" "Start time and end time are required") := by
          simp only [calStep, rescheduleEvent]
          rw [if_pos (by simp [hreq])]
        rw [heq]
        exact ⟨hst, fun _ => rfl⟩

theorem calendar_start_before_end_witness :
    eventsInvariant (calStep mockEvents
      (.reschedule "1" (some "2024-02-16T10:00:00Z") (some "2024-02-16T12:00:00Z")
        "2024-01-21T00:00:00Z")).1 :=
  (calendar_start_before_end mockEvents
    (.reschedule "1" (some "2024-02-16T10:00:00Z") (some "2024-02-16T12:00:00Z")
      "2024-01-21T00:00:00Z")
    (by decide) (by unfold eventsInvariant; decide)).1

/-- A `PUT` body whose `start_time` is the empty string: falsy, so it skips
the date-range validation, yet the spread copies it into the record. -/
def c9EmptyStartUpdate : EventUpdate := { start_time := some "" }

/-- C9 counterexample: a `PUT /api/calendar-events/:id` supplying an
empty-string `start_time` is accepted (the `||`-gate sees only falsy values
and skips validation), and the stored event no longer starts strictly before
it ends — its `start_time` is no longer even a valid date. -/
theorem calendar_start_before_end_violated :
    eventResultIsOk
      (calStep mockEvents (.put "1" c9EmptyStartUpdate "2024-01-21T00:00:00Z")).2 = true ∧
    ¬ (∀ e ∈ (calStep mockEvents (.put "1" c9EmptyStartUpdate "2024-01-21T00:00:00Z")).1,
        startLtEnd e = true) := by
  decide

/-! ## Call logs (`src/api/routes/callLogs.ts`)

The `CallLogData` interface, the `mockCallLogs` array, and the
`POST /:id/end` handler, which fills in `ended_at`, `duration`,
`call_status` and `updated_date` only when `ended_at` is not already
truthy. -/

structure Participant where
  name : String
  role : String
  phone : Option String
deriving DecidableEq, Repr

structure AiInsights where
  sentiment : String
  key_topics : List String
  follow_up_required : Bool
  urgency_level : String
deriving DecidableEq, Repr

structure CallLogData where
  id : String
  case_id : Option String
  to_number : String
  from_number : String
  started_at : String
  ended_at : Option String
  duration : Option Int
  recording_url : Option String
  transcript : Option String
  summary : Option String
  call_status : String
  call_purpose : String
  notes : Option String
  action_items : List String
  participants : List Participant
  ai_insights : Option AiInsights
  created_date : String
  updated_date : String
  user_id : String
deriving DecidableEq, Repr

/-- The initial `mockCallLogs` development data. -/
def mockCallLogs : List CallLogData :=
  [{ id := "1",
     case_id := some "1",
     to_number := "+15551234567",
     from_number := "+15559876543",
     started_at := "2024-01-20T14:00:00Z",
     ended_at := some "2024-01-20T14:15:00Z",
     duration := some 900,
     recording_url := some "/recordings/call-1-20240120.mp3",
     transcript := some "Attorney: Good afternoon, Mr. Smith. I wanted to discuss the contract dispute case...",
     summary := some "Discussed contract dispute details with client. Client provided additional evidence.",
     call_status := "completed",
     call_purpose := "client_consultation",
     notes := some "Client mentioned new witness who saw the contract signing",
     action_items :=
       ["Contact new witness for statement",
        "Review additional contract evidence",
        "Schedule follow-up meeting"],
     participants :=
       [{ name := "John Smith", role := "client", phone := some "+15551234567" },
        { name := "Demo Attorney", role := "attorney", phone := some "+15559876543" }],
     ai_insights := some
       { sentiment := "positive",
         key_topics := ["contract dispute", "witness testimony", "evidence"],
         follow_up_required := true,
         urgency_level := "medium" },
     created_date := "2024-01-20T14:00:00Z",
     updated_date := "2024-01-20T14:16:00Z",
     user_id := "1" },
   { id := "2",
     case_id := some "2",
     to_number := "+15555551234",
     from_number := "+15559876543",
     started_at := "2024-01-18T10:30:00Z",
     ended_at := some "2024-01-18T10:45:00Z",
     duration := some 900,
     recording_url := none,
     transcript := none,
     summary := none,
     call_status := "completed",
     call_purpose := "client_consultation",
     notes := some "Initial consultation for DUI case",
     action_items :=
       ["Request police report",
        "Schedule DMV hearing",
        "Gather character references"],
     participants :=
       [{ name := "Robert Williams", role := "client", phone := some "+15555551234" }],
     ai_insights := some
       { sentiment := "neutral",
         key_topics := ["DUI", "police report", "DMV hearing"],
         follow_up_required := true,
         urgency_level := "high" },
     created_date := "2024-01-18T10:30:00Z",
     updated_date := "2024-01-18T10:46:00Z",
     user_id := "1" }]

inductive CallResult where
  | ok (status : Nat) (data : CallLogData)
  | err (status : Nat) (code : String) (message : String)
deriving DecidableEq, Repr

/-- The record written by the end handler when the call is still open:
`ended_at` and `updated_date` from the clock, `duration` as
`Math.floor((endTime - startTime) / 1000)` (`NaN`, i.e. `none`, when
`started_at` does not parse), status `completed`. -/
def endedCallLog (callLog : CallLogData) (nowIso : String) : CallLogData :=
  { callLog with
    ended_at := some nowIso,
    duration := match jsGetTime nowIso, jsGetTime callLog.started_at with
      | some a, some b => some (Int.fdiv (a - b) 1000)
      | _, _ => none,
    call_status := "completed",
    updated_date := nowIso }

/-- `POST /api/call-logs/:id/end`: 404 for an unknown id; when `ended_at` is
already truthy the record is returned untouched, otherwise it is ended. -/
def endCall (store : List CallLogData) (id nowIso : String) :
    List CallLogData × CallResult :=
  let idx := store.findIdx (fun c => c.id == id)
  if h : idx < store.length then
    let callLog := store[idx]
    if jsTruthy callLog.ended_at then
      (store, .ok 200 callLog)
    else
      (store.set idx (endedCallLog callLog nowIso),
       .ok 200 (endedCallLog callLog nowIso))
  else
    (store, .err 404 "CALL_LOG_NOT_FOUND" "Call log not found")

theorem findIdx_set_eq {α : Type} (p : α → Bool) (l : List α) (i : Nat) (a : α)
    (hi : i < l.length) (hpa : p a = p l[i]) :
    (l.set i a).findIdx p = l.findIdx p := by
  induction l generalizing i with
  | nil => cases hi
  | cons b bs ih =>
      cases i with
      | zero =>
          have : p a = p b := by simpa using hpa
          simp [List.set, List.findIdx_cons, this]
      | succ j =>
          have hj : j < bs.length := by simpa using hi
          have hpa' : p a = p bs[j] := by simpa using hpa
          simp only [List.set, List.findIdx_cons]
          rw [ih j hj hpa']

/-- Evaluation of the end handler on an unknown id. -/
theorem endCall_notfound_eq (store : List CallLogData) (id now : String)
    (h : ¬ store.findIdx (fun c => c.id == id) < store.length) :
    endCall store id now = (store, .err 404 "CALL_LOG_NOT_FOUND" "Call log not found") := by
  simp only [endCall]
  rw [dif_neg h]

/-- Evaluation of the end handler on a call already ended. -/
theorem endCall_truthy_eq (store : List CallLogData) (id now : String)
    (h : store.findIdx (fun c => c.id == id) < store.length)
    (htr : jsTruthy store[store.findIdx (fun c => c.id == id)].ended_at = true) :
    endCall store id now = (store, .ok 200 store[store.findIdx (fun c => c.id == id)]) := by
  simp only [endCall]
  rw [dif_pos h, if_pos htr]

/-- Evaluation of the end handler on a still-open call. -/
theorem endCall_open_eq (store : List CallLogData) (id now : String)
    (h : store.findIdx (fun c => c.id == id) < store.length)
    (htr : ¬ jsTruthy store[store.findIdx (fun c => c.id == id)].ended_at = true) :
    endCall store id now =
      (store.set (store.findIdx (fun c => c.id == id))
        (endedCallLog store[store.findIdx (fun c => c.id == id)] now),
       .ok 200 (endedCallLog store[store.findIdx (fun c => c.id == id)] now)) := by
  simp only [endCall]
  rw [dif_pos h, if_neg htr]

/-- C10: ending an already-ended call is a no-op — when the stored log's
`ended_at` is already set (truthy), `POST /api/call-logs/:id/end` leaves the
store and the record entirely unchanged and returns the record — and ending a
call twice yields the same stored state as ending it once. -/
theorem endCall_idempotent (store : List CallLogData) (id nowIso now2 : String)
    (hnow : nowIso ≠ "") :
    (∀ i, (hi : i < store.length) → store.findIdx (fun c => c.id == id) = i →
      jsTruthy store[i].ended_at = true →
      endCall store id nowIso = (store, .ok 200 store[i])) ∧
    (endCall (endCall store id nowIso).1 id now2).1 = (endCall store id nowIso).1 := by
  constructor
  · intro i hi hfind htr
    subst hfind
    exact endCall_truthy_eq store id nowIso hi htr
  · by_cases h : store.findIdx (fun c => c.id == id) < store.length
    · by_cases htr : jsTruthy store[store.findIdx (fun c => c.id == id)].ended_at = true
      · rw [endCall_truthy_eq store id nowIso h htr]
        show (endCall store id now2).1 = store
        rw [endCall_truthy_eq store id now2 h htr]
      · rw [endCall_open_eq store id nowIso h htr]
        show (endCall (store.set (store.findIdx (fun c => c.id == id))
            (endedCallLog store[store.findIdx (fun c => c.id == id)] nowIso)) id now2).1 =
          store.set (store.findIdx (fun c => c.id == id))
            (endedCallLog store[store.findIdx (fun c => c.id == id)] nowIso)
        have hfind2 : (store.set (store.findIdx (fun c => c.id == id))
            (endedCallLog store[store.findIdx (fun c => c.id == id)] nowIso)).findIdx
              (fun c => c.id == id) = store.findIdx (fun c => c.id == id) :=
          findIdx_set_eq _ store _ _ h (by simp [endedCallLog])
        have hlt2 : (store.set (store.findIdx (fun c => c.id == id))
            (endedCallLog store[store.findIdx (fun c => c.id == id)] nowIso)).findIdx
              (fun c => c.id == id) <
            (store.set (store.findIdx (fun c => c.id == id))
              (endedCallLog store[store.findIdx (fun c => c.id == id)] nowIso)).length := by
          rw [hfind2]
          simpa using h
        have hget2 : (store.set (store.findIdx (fun c => c.id == id))
            (endedCallLog store[store.findIdx (fun c => c.id == id)] nowIso))[
              (store.set (store.findIdx (fun c => c.id == id))
                (endedCallLog store[store.findIdx (fun c => c.id == id)] nowIso)).findIdx
                  (fun c => c.id == id)] =
            endedCallLog store[store.findIdx (fun c => c.id == id)] nowIso := by
          simp only [hfind2]
          rw [List.getElem_set_self]
        have htr2 : jsTruthy (store.set (store.findIdx (fun c => c.id == id))
            (endedCallLog store[store.findIdx (fun c => c.id == id)] nowIso))[
              (store.set (store.findIdx (fun c => c.id == id))
                (endedCallLog store[store.findIdx (fun c => c.id == id)] nowIso)).findIdx
                  (fun c => c.id == id)].ended_at = true := by
          rw [hget2]
          simp only [endedCallLog, jsTruthy]
          simp [hnow]
        rw [endCall_truthy_eq _ id now2 hlt2 htr2]
    · rw [endCall_notfound_eq store id nowIso h]
      show (endCall store id now2).1 = store
      rw [endCall_notfound_eq store id now2 h]

theorem endCall_idempotent_witness :
    endCall mockCallLogs "1" "2024-01-21T00:00:00Z" =
      (mockCallLogs, .ok 200 mockCallLogs[0]) :=
  (endCall_idempotent mockCallLogs "1" "2024-01-21T00:00:00Z" "2024-01-22T00:00:00Z"
    (by decide)).1 0 (by decide) (by decide) (by decide)
